import Mathlib

/-!
Verification of the UmaDB PHP-binding client (src/src/lib.rs) against its
natural-language specification.

The binding wraps the external `umadb_client` / `umadb_dcb` Rust crates.  The
PHP-visible value classes (Event, SequencedEvent, QueryItem, Query,
AppendCondition), the conversions to the Rust wire types, the error
translation and the `Client` read/append control flow are embedded from the
source.  The external store behaviour (query matching, append-condition
evaluation, positions) is not in this repository; those parts are modelled
from the spec and carry a doc comment saying so.

PHP strings are byte sequences; we model them as `List Nat` where the byte
content matters (event data) and as Lean `String` where the source only
moves the value around unchanged.
-/

namespace UmaDB

/-! ## UTF-8 lossy decoding (Rust `String::from_utf8_lossy`) -/

/-- A UTF-8 continuation byte, `0x80..=0xBF`. -/
def utf8Cont (b : Nat) : Bool := 0x80 ≤ b && b ≤ 0xBF

/-- Admissible first continuation byte after a three-byte lead, following the
UTF-8 acceptance ranges used by Rust's `core::str` validation: lead `0xE0`
requires `0xA0..=0xBF`, lead `0xED` requires `0x80..=0x9F`, other three-byte
leads accept any continuation byte. -/
def utf8Cont3First (b c : Nat) : Bool :=
  if b = 0xE0 then 0xA0 ≤ c && c ≤ 0xBF
  else if b = 0xED then 0x80 ≤ c && c ≤ 0x9F
  else utf8Cont c

/-- Admissible first continuation byte after a four-byte lead: lead `0xF0`
requires `0x90..=0xBF`, lead `0xF4` requires `0x80..=0x8F`, other four-byte
leads accept any continuation byte. -/
def utf8Cont4First (b c : Nat) : Bool :=
  if b = 0xF0 then 0x90 ≤ c && c ≤ 0xBF
  else if b = 0xF4 then 0x80 ≤ c && c ≤ 0x8F
  else utf8Cont c

/-- The UTF-8 encoding of U+FFFD REPLACEMENT CHARACTER. -/
def utf8Rep : List Nat := [0xEF, 0xBF, 0xBD]

/-- Byte-level embedding of Rust's `String::from_utf8_lossy` (called by
`Event::get_data`, lib.rs 97-99): each valid UTF-8 sequence passes through
unchanged; each maximal invalid subpart is replaced by the UTF-8 encoding of
U+FFFD, with the skip lengths of Rust's `Utf8Error::error_len` (an invalid
lead byte consumes one byte; a valid lead whose continuation fails consumes
only the bytes accepted so far). -/
def utf8Lossy : List Nat → List Nat
  | [] => []
  | b :: rest =>
    if b ≤ 0x7F then b :: utf8Lossy rest
    else if 0xC2 ≤ b && b ≤ 0xDF then
      match rest with
      | c :: rest2 =>
        if utf8Cont c then b :: c :: utf8Lossy rest2
        else utf8Rep ++ utf8Lossy (c :: rest2)
      | [] => utf8Rep
    else if 0xE0 ≤ b && b ≤ 0xEF then
      match rest with
      | c :: rest2 =>
        if utf8Cont3First b c then
          match rest2 with
          | d :: rest3 =>
            if utf8Cont d then b :: c :: d :: utf8Lossy rest3
            else utf8Rep ++ utf8Lossy (d :: rest3)
          | [] => utf8Rep
        else utf8Rep ++ utf8Lossy (c :: rest2)
      | [] => utf8Rep
    else if 0xF0 ≤ b && b ≤ 0xF4 then
      match rest with
      | c :: rest2 =>
        if utf8Cont4First b c then
          match rest2 with
          | d :: rest3 =>
            if utf8Cont d then
              match rest3 with
              | e :: rest4 =>
                if utf8Cont e then b :: c :: d :: e :: utf8Lossy rest4
                else utf8Rep ++ utf8Lossy (e :: rest4)
              | [] => utf8Rep
            else utf8Rep ++ utf8Lossy (d :: rest3)
          | [] => utf8Rep
        else utf8Rep ++ utf8Lossy (c :: rest2)
      | [] => utf8Rep
    else utf8Rep ++ utf8Lossy rest

/-- Whether a byte sequence is valid UTF-8, with exactly the acceptance ranges
of `utf8Lossy` (the acceptance condition of Rust's `core::str`
`run_utf8_validation`). -/
def validUtf8 : List Nat → Bool
  | [] => true
  | b :: rest =>
    if b ≤ 0x7F then validUtf8 rest
    else if 0xC2 ≤ b && b ≤ 0xDF then
      match rest with
      | c :: rest2 => utf8Cont c && validUtf8 rest2
      | [] => false
    else if 0xE0 ≤ b && b ≤ 0xEF then
      match rest with
      | c :: rest2 =>
        utf8Cont3First b c &&
          (match rest2 with
           | d :: rest3 => utf8Cont d && validUtf8 rest3
           | [] => false)
      | [] => false
    else if 0xF0 ≤ b && b ≤ 0xF4 then
      match rest with
      | c :: rest2 =>
        utf8Cont4First b c &&
          (match rest2 with
           | d :: rest3 =>
             utf8Cont d &&
               (match rest3 with
                | e :: rest4 => utf8Cont e && validUtf8 rest4
                | [] => false)
           | [] => false)
      | [] => false
    else false

/-- One decoding step of `utf8Lossy`, reified as data: whether the front of
the input is a valid sequence, the bytes emitted for it, and the remaining
input.  Used only to reason about `utf8Lossy` and `validUtf8`. -/
structure Utf8Step where
  ok : Bool
  out : List Nat
  rest : List Nat

/-- The step function matching the branch structure of `utf8Lossy`. -/
def utf8Step : List Nat → Utf8Step
  | [] => ⟨true, [], []⟩
  | b :: rest =>
    if b ≤ 0x7F then ⟨true, [b], rest⟩
    else if 0xC2 ≤ b && b ≤ 0xDF then
      match rest with
      | c :: rest2 =>
        if utf8Cont c then ⟨true, [b, c], rest2⟩ else ⟨false, utf8Rep, c :: rest2⟩
      | [] => ⟨false, utf8Rep, []⟩
    else if 0xE0 ≤ b && b ≤ 0xEF then
      match rest with
      | c :: rest2 =>
        if utf8Cont3First b c then
          match rest2 with
          | d :: rest3 =>
            if utf8Cont d then ⟨true, [b, c, d], rest3⟩ else ⟨false, utf8Rep, d :: rest3⟩
          | [] => ⟨false, utf8Rep, []⟩
        else ⟨false, utf8Rep, c :: rest2⟩
      | [] => ⟨false, utf8Rep, []⟩
    else if 0xF0 ≤ b && b ≤ 0xF4 then
      match rest with
      | c :: rest2 =>
        if utf8Cont4First b c then
          match rest2 with
          | d :: rest3 =>
            if utf8Cont d then
              match rest3 with
              | e :: rest4 =>
                if utf8Cont e then ⟨true, [b, c, d, e], rest4⟩
                else ⟨false, utf8Rep, e :: rest4⟩
              | [] => ⟨false, utf8Rep, []⟩
            else ⟨false, utf8Rep, d :: rest3⟩
          | [] => ⟨false, utf8Rep, []⟩
        else ⟨false, utf8Rep, c :: rest2⟩
      | [] => ⟨false, utf8Rep, []⟩
    else ⟨false, utf8Rep, rest⟩

/-! ## UUID parsing -/

/-- Hexadecimal digit check for UUID strings. -/
def isHexDigit (c : Char) : Bool :=
  (('0' ≤ c && c ≤ '9') || ('a' ≤ c && c ≤ 'f') || ('A' ≤ c && c ≤ 'F'))

/-- Modelled from the spec: `Uuid::parse_str` of the external `uuid` crate,
used by `Event::to_dcb_event` (lib.rs 128).  The spec requires that `uuid`,
when present, "must parse as a 128-bit UUID" and calls the wire form "an
optional canonical UUID string" (§3, §6); we model the canonical hyphenated
`8-4-4-4-12` hex-digit form, returning the canonical (lowercased) rendering
on success and nothing on failure. -/
def uuidParse (s : String) : Option String :=
  let cs := s.toList
  if cs.length = 36 &&
      (List.range 36).all (fun i =>
        if i = 8 || i = 13 || i = 18 || i = 23 then cs.getD i ' ' == '-'
        else isHexDigit (cs.getD i ' ')) then
    some s.toLower
  else
    none

/-! ## PHP-level value classes -/

/-- PHP-level Event class (lib.rs 52-64): event type, binary data, tags and an
optional uuid string. -/
structure Event where
  event_type : String
  data : List Nat
  tags : List String
  uuid : Option String
  deriving Repr, DecidableEq

/-- Embeds `Event::__construct` (lib.rs 75-87): stores the fields; `data.into_bytes`
is the identity on the byte sequence of the PHP string; an absent `tags`
argument defaults to the empty sequence (`unwrap_or_default`).  Construction
is total: no field is validated. -/
def Event.construct (event_type : String) (data : List Nat)
    (tags : Option (List String)) (uuid : Option String) : Event :=
  { event_type := event_type, data := data, tags := tags.getD [], uuid := uuid }

/-- Embeds `Event::get_event_type` getter (lib.rs 90-93). -/
def Event.get_event_type (e : Event) : String := e.event_type

/-- Embeds `Event::get_data` getter (lib.rs 96-99): returns
`String::from_utf8_lossy(&self.data).to_string()`; we expose the byte
sequence of the resulting PHP string. -/
def Event.get_data (e : Event) : List Nat := utf8Lossy e.data

/-- Embeds `Event::get_tags` getter (lib.rs 102-105). -/
def Event.get_tags (e : Event) : List String := e.tags

/-- Embeds `Event::get_uuid` getter (lib.rs 108-111). -/
def Event.get_uuid (e : Event) : Option String := e.uuid

/-- Rust-side `DCBEvent` of the external `umadb_dcb` crate, as used by the
source: event type, data bytes, tags, and an optional parsed `Uuid` (we keep
the parsed uuid as its canonical string rendering). -/
structure RustEvent where
  event_type : String
  data : List Nat
  tags : List String
  uuid : Option String
  deriving Repr, DecidableEq

/-- Embeds `Event::to_dcb_event` (lib.rs 125-141): parses the uuid string when
present, failing with a PHP exception whose message starts with
"Invalid UUID:" if it does not parse; otherwise copies all fields. -/
def Event.to_dcb_event (e : Event) : Except String RustEvent :=
  match e.uuid with
  | some uuid_str =>
    match uuidParse uuid_str with
    | some u =>
      Except.ok { event_type := e.event_type, data := e.data, tags := e.tags, uuid := some u }
    | none => Except.error ("Invalid UUID: " ++ uuid_str)
  | none =>
    Except.ok { event_type := e.event_type, data := e.data, tags := e.tags, uuid := none }

/-- PHP-level SequencedEvent class (lib.rs 153-161). -/
structure SequencedEvent where
  event : Event
  position : Nat
  deriving Repr, DecidableEq

/-- Embeds `SequencedEvent::get_event` getter (lib.rs 166-169). -/
def SequencedEvent.get_event (s : SequencedEvent) : Event := s.event

/-- Embeds `SequencedEvent::get_position` getter (lib.rs 172-175). -/
def SequencedEvent.get_position (s : SequencedEvent) : Nat := s.position

/-- Rust-side `DCBSequencedEvent`: an event plus its store-assigned position. -/
structure RustSequencedEvent where
  event : RustEvent
  position : Nat
  deriving Repr, DecidableEq

/-- Embeds `impl From<RustSequencedEvent> for SequencedEvent` (lib.rs 184-197): the
uuid is rendered to its string form (the identity in our model, which stores
parsed uuids canonically); every other field is moved unchanged. -/
def SequencedEvent.fromRust (s : RustSequencedEvent) : SequencedEvent :=
  { event :=
      { event_type := s.event.event_type
        data := s.event.data
        tags := s.event.tags
        uuid := s.event.uuid }
    position := s.position }

/-! ## Query model and conversions -/

/-- PHP-level QueryItem class (lib.rs 208-216): event types to match (empty =
all types) and tags that must all be present. -/
structure QueryItem where
  types : List String
  tags : List String
  deriving Repr, DecidableEq

/-- Embeds `QueryItem::__construct` (lib.rs 225-230): absent arguments default to
empty sequences. -/
def QueryItem.construct (types : Option (List String)) (tags : Option (List String)) :
    QueryItem :=
  { types := types.getD [], tags := tags.getD [] }

/-- Embeds `QueryItem::get_types` getter (lib.rs 233-236). -/
def QueryItem.get_types (q : QueryItem) : List String := q.types

/-- Embeds `QueryItem::get_tags` getter (lib.rs 239-242). -/
def QueryItem.get_tags (q : QueryItem) : List String := q.tags

/-- Rust-side `DCBQueryItem` of the external `umadb_dcb` crate. -/
structure RustQueryItem where
  types : List String
  tags : List String
  deriving Repr, DecidableEq

/-- Modelled from the spec: `DCBQueryItem::new()` of the external crate — a
query item with no type and no tag constraints (empty sequences are the
meaningful defaults, §3). -/
def RustQueryItem.new : RustQueryItem := { types := [], tags := [] }

/-- Modelled from the spec: the `types` builder method of `DCBQueryItem`,
setting the type filter. -/
def RustQueryItem.setTypes (q : RustQueryItem) (types : List String) : RustQueryItem :=
  { q with types := types }

/-- Modelled from the spec: the `tags` builder method of `DCBQueryItem`,
setting the tag constraint. -/
def RustQueryItem.setTags (q : RustQueryItem) (tags : List String) : RustQueryItem :=
  { q with tags := tags }

/-- Embeds `impl From<QueryItem> for RustQueryItem` (lib.rs 245-256): starts from
`DCBQueryItem::new()` and applies the `types`/`tags` builders only when the
respective PHP-level list is non-empty. -/
def QueryItem.toRust (item : QueryItem) : RustQueryItem :=
  let q := RustQueryItem.new
  let q := if !item.types.isEmpty then q.setTypes item.types else q
  let q := if !item.tags.isEmpty then q.setTags item.tags else q
  q

/-- PHP-level Query class (lib.rs 265-271): a list of query items with OR
semantics. -/
structure Query where
  items : List QueryItem
  deriving Repr, DecidableEq

/-- Embeds `Query::__construct` (lib.rs 279-283): absent item list defaults to the
empty sequence; the referenced items are cloned. -/
def Query.construct (items : Option (List QueryItem)) : Query :=
  { items := items.getD [] }

/-- Embeds `Query::get_items` getter (lib.rs 286-289). -/
def Query.get_items (q : Query) : List QueryItem := q.items

/-- Rust-side `DCBQuery` of the external `umadb_dcb` crate. -/
structure RustQuery where
  items : List RustQueryItem
  deriving Repr, DecidableEq

/-- Modelled from the spec: `DCBQuery::new()` — the query with no items,
which matches everything (§3). -/
def RustQuery.new : RustQuery := { items := [] }

/-- Modelled from the spec: the `item` builder method of `DCBQuery`, appending
one query item. -/
def RustQuery.addItem (q : RustQuery) (item : RustQueryItem) : RustQuery :=
  { q with items := q.items ++ [item] }

/-- Embeds `impl From<Query> for RustQuery` (lib.rs 292-300): starts from
`DCBQuery::new()` and appends the conversion of each item in order. -/
def Query.toRust (query : Query) : RustQuery :=
  query.items.foldl (fun rq i => rq.addItem i.toRust) RustQuery.new

/-- Modelled from the spec: the store's query-item matching predicate (§4.1):
an event matches a query item iff the item's `types` is empty or contains the
event's type, and every tag of the item is present on the event.  The source
states the same rule in the `QueryItem` doc comment (lib.rs 203-207). -/
def rustMatchesItem (e : RustEvent) (i : RustQueryItem) : Bool :=
  (i.types.isEmpty || i.types.contains e.event_type) &&
    i.tags.all (fun t => e.tags.contains t)

/-- Modelled from the spec: the store's query matching predicate (§4.1): an
event matches a query iff the query has no items or it matches at least one
item (OR across items).  The source states the same rule in the `Query` doc
comment (lib.rs 262-264). -/
def rustMatches (e : RustEvent) (q : RustQuery) : Bool :=
  q.items.isEmpty || q.items.any (rustMatchesItem e)

/-! ## Append condition -/

/-- PHP-level AppendCondition class (lib.rs 313-321). -/
structure AppendCondition where
  fail_if_events_match : Query
  after : Option Nat
  deriving Repr, DecidableEq

/-- Embeds `AppendCondition::__construct` (lib.rs 330-335): clones the query and
stores the optional position. -/
def AppendCondition.construct (fail_if_events_match : Query) (after : Option Nat) :
    AppendCondition :=
  { fail_if_events_match := fail_if_events_match, after := after }

/-- Embeds `AppendCondition::get_fail_if_events_match` getter (lib.rs 338-341). -/
def AppendCondition.get_fail_if_events_match (c : AppendCondition) : Query :=
  c.fail_if_events_match

/-- Embeds `AppendCondition::get_after` getter (lib.rs 344-347). -/
def AppendCondition.get_after (c : AppendCondition) : Option Nat := c.after

/-- Rust-side `DCBAppendCondition` of the external `umadb_dcb` crate. -/
structure RustAppendCondition where
  fail_if_events_match : RustQuery
  after : Option Nat
  deriving Repr, DecidableEq

/-- Modelled from the spec: `DCBAppendCondition::new(query)` — a condition on
the given query with no `after` position ("since the beginning", §3). -/
def RustAppendCondition.new (q : RustQuery) : RustAppendCondition :=
  { fail_if_events_match := q, after := none }

/-- Modelled from the spec: the `after` builder method of
`DCBAppendCondition`, setting the optional position boundary. -/
def RustAppendCondition.setAfter (c : RustAppendCondition) (after : Option Nat) :
    RustAppendCondition :=
  { c with after := after }

/-- Embeds `impl From<AppendCondition> for RustAppendCondition` (lib.rs 350-358):
builds from the converted query and applies the `after` builder only when the
PHP-level `after` is present. -/
def AppendCondition.toRust (c : AppendCondition) : RustAppendCondition :=
  let rc := RustAppendCondition.new c.fail_if_events_match.toRust
  match c.after with
  | some a => rc.setAfter (some a)
  | none => rc

/-! ## Error taxonomy -/

/-- Model of `DCBError` of the external `umadb_dcb` crate.  The four variants matched
by name in `dcb_error_to_exception` (lib.rs 23-39) are embedded as such;
`other` stands for any further store-reported variant, reaching the source's
catch-all `_` arm, carrying its debug rendering. -/
inductive DCBError where
  | integrityError (msg : String)
  | transportError (msg : String)
  | corruption (msg : String)
  | ioError (msg : String)
  | other (debugRepr : String)
  deriving Repr, DecidableEq

/-- The debug rendering (`{:?}`) used by the catch-all arm of
`dcb_error_to_exception`; for the `other` variant it is the carried
rendering itself. -/
def DCBError.debug : DCBError → String
  | .integrityError m => "IntegrityError(" ++ m ++ ")"
  | .transportError m => "TransportError(" ++ m ++ ")"
  | .corruption m => "Corruption(" ++ m ++ ")"
  | .ioError m => "Io(" ++ m ++ ")"
  | .other r => r

/-- Embeds `dcb_error_to_exception` (lib.rs 23-39): every store error becomes a PHP
exception (modelled as its message): the four matched variants get the
corresponding `UmaDB\Exception\...` message prefix, anything else falls
through to a generic `UmaDBException` message carrying the debug rendering. -/
def dcb_error_to_exception : DCBError → String
  | .integrityError msg => "UmaDB\\Exception\\IntegrityException: " ++ msg
  | .transportError msg => "UmaDB\\Exception\\TransportException: " ++ msg
  | .corruption msg => "UmaDB\\Exception\\CorruptionException: " ++ msg
  | .ioError msg => "UmaDB\\Exception\\IoException: " ++ msg
  | e => "UmaDB\\Exception\\UmaDBException: " ++ e.debug

/-- Prefix check on PHP strings (by character list), used to state which
exception-message shape an error surfaces as. -/
def strStarts (p s : String) : Bool := p.toList.isPrefixOf s.toList

/-- The closed error taxonomy of spec §7, as exception-message shapes: the
four store-side classes produced by `dcb_error_to_exception` plus the
client-side validation errors raised by `Event::to_dcb_event`. -/
def inTaxonomy (msg : String) : Bool :=
  strStarts "UmaDB\\Exception\\IntegrityException:" msg ||
  strStarts "UmaDB\\Exception\\TransportException:" msg ||
  strStarts "UmaDB\\Exception\\CorruptionException:" msg ||
  strStarts "UmaDB\\Exception\\IoException:" msg ||
  strStarts "Invalid UUID:" msg

/-! ## Store model

The server-side store is an external collaborator; `Client` only talks to it.
Modelled from the spec: the store is an append-only log (a list of events
whose durable positions are `1, 2, ...` in list order — positions are
strictly increasing, assigned only by the store, and the first event of an
empty store gets position 1, §3 and §8 concrete scenario). -/

/-- Modelled from the spec: the event at index `i` of the store has durable
position `i + 1`; the store pairs each event with that position when
streaming it back (§3 SequencedEvent). -/
def storeSequenced (store : List RustEvent) : List RustSequencedEvent :=
  store.enum.map (fun p => { event := p.2, position := p.1 + 1 })

/-- Modelled from the spec: the store-side append-condition check (§3, §4.4):
some already-durable event with position strictly greater than `after`
(absent `after` meaning "since the beginning") matches the condition's
query. -/
def condViolated (store : List RustEvent) (c : RustAppendCondition) : Bool :=
  (storeSequenced store).any
    (fun se => decide (se.position > c.after.getD 0) &&
      rustMatches se.event c.fail_if_events_match)

/-- Modelled from the spec: the store's atomic append (§4.4): with a
condition present, it fails with an integrity error and writes nothing iff
the condition is violated; otherwise the whole batch is appended contiguously
and the position of the last appended event (the new head) is returned.  The
result carries the store after the call. -/
def storeAppend (store : List RustEvent) (events : List RustEvent)
    (cond : Option RustAppendCondition) : Except DCBError Nat × List RustEvent :=
  match cond with
  | some c =>
    if condViolated store c then
      (Except.error (DCBError.integrityError "append condition failed"), store)
    else
      (Except.ok (store.length + events.length), store ++ events)
  | none => (Except.ok (store.length + events.length), store ++ events)

/-! ## Client read -/

/-- What the caller of `Client::read` observes: either the exception message
or the complete array of sequenced events.  The loop of lib.rs 440-446 folds
the store's result stream into a vector, short-circuiting with the translated
exception at the first stream error (`?`), so events already pulled from the
stream are discarded on failure. -/
def readLoop (stream : List (Except DCBError RustSequencedEvent))
    (acc : List SequencedEvent) : Except String (List SequencedEvent) :=
  match stream with
  | [] => Except.ok acc.reverse
  | Except.ok se :: rest => readLoop rest (SequencedEvent.fromRust se :: acc)
  | Except.error e :: _ => Except.error (dcb_error_to_exception e)

/-- Embeds `Client::read` (lib.rs 423-447) applied to the result stream the inner
Rust client produces for the call: it consumes the stream item by item into a
vector and only then returns, as an array or a single exception. -/
def Client.read (stream : List (Except DCBError RustSequencedEvent)) :
    Except String (List SequencedEvent) :=
  readLoop stream []

/-- How many stream items `Client::read`'s loop pulls from the store's
iterator before the call returns: all of them, or every item up to and
including the first error. -/
def readConsumed (stream : List (Except DCBError RustSequencedEvent)) : Nat :=
  match stream with
  | [] => 0
  | Except.ok _ :: rest => 1 + readConsumed rest
  | Except.error _ :: _ => 1

/-- An item of a possibly endless result stream: the next event or error, or
the end of the stream. -/
inductive StreamItem where
  | next (r : Except DCBError RustSequencedEvent)
  | ended
  deriving Repr

/-- The state of the `for result in response` loop of `Client::read`
(lib.rs 440-446): still looping with an accumulated vector (nothing returned
to the caller yet), or returned with the call's outcome. -/
inductive LoopState where
  | running (buf : List SequencedEvent)
  | finished (res : Except String (List SequencedEvent))
  deriving Repr

/-- The read loop of `Client::read` traced step by step over a stream given
as a function of the item index (so that endless subscription streams are
representable): after `n` steps the loop has either returned or is still
accumulating; events reach the caller only in a `finished` state carrying
`Except.ok`. -/
def readSteps (stream : Nat → StreamItem) : Nat → LoopState
  | 0 => LoopState.running []
  | n + 1 =>
    match readSteps stream n with
    | LoopState.finished r => LoopState.finished r
    | LoopState.running buf =>
      match stream n with
      | StreamItem.ended => LoopState.finished (Except.ok buf.reverse)
      | StreamItem.next (Except.ok se) =>
        LoopState.running (SequencedEvent.fromRust se :: buf)
      | StreamItem.next (Except.error e) =>
        LoopState.finished (Except.error (dcb_error_to_exception e))

/-! ## Client append -/

/-- The event-conversion step of `Client::append` (lib.rs 477-482): Rust's
`collect` over an iterator of results short-circuits at the first failing
`to_dcb_event`, before anything is sent to the store. -/
def collectEvents : List Event → Except String (List RustEvent)
  | [] => Except.ok []
  | e :: rest =>
    match e.to_dcb_event with
    | Except.error msg => Except.error msg
    | Except.ok re =>
      match collectEvents rest with
      | Except.error msg => Except.error msg
      | Except.ok res => Except.ok (re :: res)

/-- The observable outcome of one `Client::append` call: the returned
position or exception, the store contents after the call, and whether the
inner client (the network) was invoked at all. -/
structure AppendOutcome where
  result : Except String Nat
  newStore : List RustEvent
  networkCalled : Bool
  deriving Repr

/-- Embeds `Client::append` (lib.rs 472-488) against the modelled store: converts
the PHP events (failing before any network call on an invalid uuid), converts
the optional condition, and delegates to the store's atomic append,
translating any store error through `dcb_error_to_exception`. -/
def Client.append (store : List RustEvent) (events : List Event)
    (condition : Option AppendCondition) : AppendOutcome :=
  match collectEvents events with
  | Except.error msg =>
    { result := Except.error msg, newStore := store, networkCalled := false }
  | Except.ok revs =>
    match storeAppend store revs (condition.map AppendCondition.toRust) with
    | (Except.error e, s) =>
      { result := Except.error (dcb_error_to_exception e), newStore := s, networkCalled := true }
    | (Except.ok pos, s) =>
      { result := Except.ok pos, newStore := s, networkCalled := true }

/-- Modelled from the spec: `Client::head` / the store's head position
(§4.3): the position of the most recent durable event, or absent for an
empty store. -/
def storeHead (store : List RustEvent) : Option Nat :=
  if store.isEmpty then none else some store.length

/-! ## Concrete sample values used by witnesses and counterexamples -/

/-- A sample store event. -/
def sampleRustEvent : RustEvent :=
  { event_type := "Created", data := [104, 105], tags := ["order:1"], uuid := none }

/-- A sample sequenced event at position 1. -/
def sampleSeq : RustSequencedEvent := { event := sampleRustEvent, position := 1 }

/-- A result stream that yields one event and then fails with a transport
error. -/
def failingStream : List (Except DCBError RustSequencedEvent) :=
  [Except.ok sampleSeq, Except.error (DCBError.transportError "boom")]

/-- A result stream of two events and no error. -/
def twoEventStream : List (Except DCBError RustSequencedEvent) :=
  [Except.ok sampleSeq,
   Except.ok { event := { event_type := "Updated", data := [], tags := [], uuid := none },
               position := 2 }]

/-- An endless subscription stream that yields `sampleSeq` forever. -/
def constStream : Nat → StreamItem :=
  fun _ => StreamItem.next (Except.ok sampleSeq)

/-- A PHP event without uuid, for append witnesses. -/
def sampleEvent : Event :=
  { event_type := "Created", data := [120], tags := ["order:1"], uuid := none }

/-- The Rust form of `sampleEvent` after conversion. -/
def sampleEventRust : RustEvent :=
  { event_type := "Created", data := [120], tags := ["order:1"], uuid := none }

/-- A PHP event carrying an unparseable uuid string. -/
def badUuidEvent : Event :=
  { event_type := "T", data := [100], tags := [], uuid := some "not-a-uuid" }

/-- A condition failing on any prior "Created" event tagged "order:1",
counted from the beginning. -/
def sampleCondition : AppendCondition :=
  { fail_if_events_match :=
      { items := [{ types := ["Created"], tags := ["order:1"] }] }
    after := none }

/-! ## Helper lemmas: UTF-8 -/

theorem utf8Lossy_eq_step (l : List Nat) :
    utf8Lossy l = (utf8Step l).out ++ utf8Lossy (utf8Step l).rest := by
  rcases l with _ | ⟨b, rest⟩
  · rfl
  rcases rest with _ | ⟨c, rest2⟩
  · rw [utf8Lossy.eq_def, utf8Step.eq_def]
    dsimp only
    split_ifs <;> simp [utf8Rep, utf8Lossy]
  rcases rest2 with _ | ⟨d, rest3⟩
  · rw [utf8Lossy.eq_def, utf8Step.eq_def]
    dsimp only
    split_ifs <;> simp [utf8Rep, utf8Lossy]
  rcases rest3 with _ | ⟨e, rest4⟩
  · rw [utf8Lossy.eq_def, utf8Step.eq_def]
    dsimp only
    split_ifs <;> simp [utf8Rep, utf8Lossy]
  · rw [utf8Lossy.eq_def, utf8Step.eq_def]
    dsimp only
    split_ifs <;> simp [utf8Rep, utf8Lossy]

theorem validUtf8_eq_step (l : List Nat) :
    validUtf8 l = ((utf8Step l).ok && validUtf8 (utf8Step l).rest) := by
  rcases l with _ | ⟨b, rest⟩
  · rfl
  rcases rest with _ | ⟨c, rest2⟩
  · rw [validUtf8.eq_def, utf8Step.eq_def]
    dsimp only
    split_ifs <;> simp_all [validUtf8]
  rcases rest2 with _ | ⟨d, rest3⟩
  · rw [validUtf8.eq_def, utf8Step.eq_def]
    dsimp only
    split_ifs <;> simp_all [validUtf8]
  rcases rest3 with _ | ⟨e, rest4⟩
  · rw [validUtf8.eq_def, utf8Step.eq_def]
    dsimp only
    split_ifs <;> simp_all [validUtf8]
  · rw [validUtf8.eq_def, utf8Step.eq_def]
    dsimp only
    split_ifs <;> simp_all [validUtf8]

theorem utf8Step_rest_lt (b : Nat) (rest : List Nat) :
    (utf8Step (b :: rest)).rest.length < (b :: rest).length := by
  rcases rest with _ | ⟨c, rest2⟩
  · simp only [utf8Step]
    split_ifs <;> simp [utf8Rep]
  · rcases rest2 with _ | ⟨d, rest3⟩
    · simp only [utf8Step]
      split_ifs <;> simp [utf8Rep]
    · rcases rest3 with _ | ⟨e, rest4⟩ <;>
        (simp only [utf8Step]; split_ifs <;> simp [utf8Rep]) <;> omega

theorem utf8Step_ok_out (l : List Nat) (h : (utf8Step l).ok = true) :
    (utf8Step l).out ++ (utf8Step l).rest = l := by
  rcases l with _ | ⟨b, rest⟩
  · rfl
  rcases rest with _ | ⟨c, rest2⟩
  · simp only [utf8Step] at h ⊢
    split_ifs at h ⊢ <;> simp_all [utf8Rep]
  rcases rest2 with _ | ⟨d, rest3⟩
  · simp only [utf8Step] at h ⊢
    split_ifs at h ⊢ <;> simp_all [utf8Rep]
  rcases rest3 with _ | ⟨e, rest4⟩ <;>
    (simp only [utf8Step] at h ⊢; split_ifs at h ⊢ <;> simp_all [utf8Rep])

theorem lossy_of_valid_aux :
    ∀ n l, List.length l ≤ n → validUtf8 l = true → utf8Lossy l = l := by
  intro n
  induction n with
  | zero =>
    intro l hl _
    rcases l with _ | ⟨b, rest⟩
    · rfl
    · simp at hl
  | succ n ih =>
    intro l hl h
    rcases l with _ | ⟨b, rest⟩
    · rfl
    · rw [validUtf8_eq_step, Bool.and_eq_true] at h
      rw [utf8Lossy_eq_step]
      have hlt := utf8Step_rest_lt b rest
      rw [ih _ (by omega) h.2]
      exact utf8Step_ok_out _ h.1

/-- Identity of `utf8Lossy` on valid UTF-8 byte sequences. -/
theorem lossy_of_valid (l : List Nat) (h : validUtf8 l = true) : utf8Lossy l = l :=
  lossy_of_valid_aux l.length l le_rfl h

/-! ## Helper lemmas: query conversion and matching -/

theorem QueryItem.toRust_eq (i : QueryItem) :
    i.toRust = { types := i.types, tags := i.tags } := by
  unfold QueryItem.toRust
  rcases i with ⟨types, tags⟩
  rcases types <;> rcases tags <;>
    simp [RustQueryItem.new, RustQueryItem.setTypes, RustQueryItem.setTags]

theorem Query.toRust_items_aux (items : List QueryItem) (init : RustQuery) :
    (items.foldl (fun rq i => rq.addItem i.toRust) init).items =
      init.items ++ items.map QueryItem.toRust := by
  induction items generalizing init with
  | nil => simp
  | cons i rest ih =>
    rw [List.foldl_cons, ih]
    simp [RustQuery.addItem]

theorem Query.toRust_items (q : Query) :
    q.toRust.items = q.items.map QueryItem.toRust := by
  simpa [Query.toRust, RustQuery.new] using Query.toRust_items_aux q.items RustQuery.new

/-- The matching predicate exactly as the spec words it (§4.1, §8), stated
over the PHP-level `Query` before conversion: the query's item list is empty,
or some item has empty `types` or contains the event's type, and all of its
tags are present on the event. -/
def specMatchesQuery (e : RustEvent) (q : Query) : Prop :=
  q.items = [] ∨
    ∃ i ∈ q.items,
      (i.types = [] ∨ e.event_type ∈ i.types) ∧ ∀ t ∈ i.tags, t ∈ e.tags

theorem rustMatchesItem_toRust (e : RustEvent) (i : QueryItem) :
    rustMatchesItem e i.toRust = true ↔
      (i.types = [] ∨ e.event_type ∈ i.types) ∧ ∀ t ∈ i.tags, t ∈ e.tags := by
  rw [QueryItem.toRust_eq]
  simp [rustMatchesItem, List.isEmpty_iff]

theorem rustMatches_toRust (e : RustEvent) (q : Query) :
    rustMatches e q.toRust = true ↔ specMatchesQuery e q := by
  unfold rustMatches specMatchesQuery
  rw [Query.toRust_items]
  constructor
  · intro h
    rcases Bool.or_eq_true _ _ |>.mp h with h | h
    · left
      simpa [List.isEmpty_iff] using h
    · right
      rcases List.any_eq_true.mp h with ⟨ri, hri, hmatch⟩
      rcases List.mem_map.mp hri with ⟨i, hi, rfl⟩
      exact ⟨i, hi, (rustMatchesItem_toRust e i).mp hmatch⟩
  · intro h
    rcases h with h | ⟨i, hi, hmatch⟩
    · simp [h]
    · refine Bool.or_eq_true _ _ |>.mpr (Or.inr ?_)
      exact List.any_eq_true.mpr
        ⟨i.toRust, List.mem_map.mpr ⟨i, hi, rfl⟩, (rustMatchesItem_toRust e i).mpr hmatch⟩

/-! ## Helper lemmas: append condition and append -/

theorem AppendCondition.toRust_fields (c : AppendCondition) :
    c.toRust = { fail_if_events_match := c.fail_if_events_match.toRust, after := c.after } := by
  unfold AppendCondition.toRust
  cases c.after <;> rfl

theorem condViolated_iff (store : List RustEvent) (c : AppendCondition) :
    condViolated store c.toRust = true ↔
      ∃ se ∈ storeSequenced store,
        se.position > c.after.getD 0 ∧
          specMatchesQuery se.event c.fail_if_events_match := by
  unfold condViolated
  rw [AppendCondition.toRust_fields]
  rw [List.any_eq_true]
  constructor
  · rintro ⟨se, hse, hcond⟩
    rw [Bool.and_eq_true, decide_eq_true_iff] at hcond
    exact ⟨se, hse, hcond.1, (rustMatches_toRust se.event c.fail_if_events_match).mp hcond.2⟩
  · rintro ⟨se, hse, hpos, hmatch⟩
    refine ⟨se, hse, ?_⟩
    rw [Bool.and_eq_true, decide_eq_true_iff]
    exact ⟨hpos, (rustMatches_toRust se.event c.fail_if_events_match).mpr hmatch⟩

theorem collectEvents_ok_length (events : List Event) (revs : List RustEvent)
    (h : collectEvents events = Except.ok revs) : revs.length = events.length := by
  induction events generalizing revs with
  | nil =>
    simp only [collectEvents] at h
    cases h
    rfl
  | cons e rest ih =>
    simp only [collectEvents] at h
    rcases he : e.to_dcb_event with _ | re
    · rw [he] at h
      cases h
    · rw [he] at h
      rcases hr : collectEvents rest with _ | res
      · rw [hr] at h
        cases h
      · rw [hr] at h
        cases h
        simp [ih res hr]

theorem collectEvents_error_of_bad (events : List Event)
    (h : ∃ e ∈ events, ∃ s, e.uuid = some s ∧ uuidParse s = none) :
    ∃ s, collectEvents events = Except.error ("Invalid UUID: " ++ s) := by
  induction events with
  | nil => simp at h
  | cons e rest ih =>
    by_cases he : ∃ s, e.uuid = some s ∧ uuidParse s = none
    · obtain ⟨s, hs, hp⟩ := he
      refine ⟨s, ?_⟩
      simp [collectEvents, Event.to_dcb_event, hs, hp]
    · have hrest : ∃ e ∈ rest, ∃ s, e.uuid = some s ∧ uuidParse s = none := by
        obtain ⟨e0, he0, s, hs, hp⟩ := h
        rcases List.mem_cons.mp he0 with rfl | hmem
        · exact absurd ⟨s, hs, hp⟩ he
        · exact ⟨e0, hmem, s, hs, hp⟩
      obtain ⟨s, hcol⟩ := ih hrest
      have hok : ∃ re, e.to_dcb_event = Except.ok re := by
        rcases hu : e.uuid with _ | u
        · exact ⟨{ event_type := e.event_type, data := e.data, tags := e.tags, uuid := none },
            by simp [Event.to_dcb_event, hu]⟩
        · rcases hp : uuidParse u with _ | v
          · exact absurd ⟨u, hu, hp⟩ he
          · exact ⟨{ event_type := e.event_type, data := e.data, tags := e.tags, uuid := some v },
              by simp [Event.to_dcb_event, hu, hp]⟩
      obtain ⟨re, hre⟩ := hok
      exact ⟨s, by simp [collectEvents, hre, hcol]⟩

/-! ## Helper lemmas: read -/

theorem readLoop_map_ok (ses : List RustSequencedEvent) (acc : List SequencedEvent) :
    readLoop (ses.map Except.ok) acc =
      Except.ok (acc.reverse ++ ses.map SequencedEvent.fromRust) := by
  induction ses generalizing acc with
  | nil => simp [readLoop]
  | cons se rest ih => simp [readLoop, ih]

theorem readConsumed_map_ok (ses : List RustSequencedEvent) :
    readConsumed (ses.map Except.ok) = ses.length := by
  induction ses with
  | nil => rfl
  | cons se rest ih => simp [readConsumed, ih, Nat.add_comm]

theorem readLoop_first_error (pre : List RustSequencedEvent) (e : DCBError)
    (rest : List (Except DCBError RustSequencedEvent)) (acc : List SequencedEvent) :
    readLoop (pre.map Except.ok ++ Except.error e :: rest) acc =
      Except.error (dcb_error_to_exception e) := by
  induction pre generalizing acc with
  | nil => rfl
  | cons se pre ih => simp [readLoop, ih]

/-! ## Helper lemmas: message prefixes -/

theorem isPrefixOf_append_right (p q m : List Char) (h : p.isPrefixOf q = true) :
    p.isPrefixOf (q ++ m) = true := by
  induction p generalizing q with
  | nil => simp [List.isPrefixOf]
  | cons a p ih =>
    cases q with
    | nil => simp [List.isPrefixOf] at h
    | cons b q =>
      simp only [List.cons_append, List.isPrefixOf, Bool.and_eq_true] at h ⊢
      exact ⟨h.1, ih q h.2⟩

theorem strStarts_append (p q m : String) (h : strStarts p q = true) :
    strStarts p (q ++ m) = true := by
  unfold strStarts at h ⊢
  have hq : (q ++ m).toList = q.toList ++ m.toList := rfl
  rw [hq]
  exact isPrefixOf_append_right _ _ _ h

theorem storeHead_getD (store : List RustEvent) :
    (storeHead store).getD 0 = store.length := by
  unfold storeHead
  cases store <;> simp

/-! ## Claims -/

/-- C1: for every event `E` and query `Q`, `matches(E, Q)` is true iff
`Q.items` is empty or some item `I` of `Q` has (`I.types` empty or
`E.event_type ∈ I.types`) and every tag of `I.tags` present in `E.tags`; the
PHP-level `Query`/`QueryItem` values convert to the store's representation so
that this predicate is preserved — in particular an empty `types` list stays
a type wildcard and an empty `tags` list stays "no tag constraint". -/
theorem c1_query_matching_preserved (e : RustEvent) (q : Query) :
    rustMatches e q.toRust = true ↔ specMatchesQuery e q :=
  rustMatches_toRust e q

/-- C10: Event/QueryItem/Query constructor–getter round-trip, with absent
optional arguments defaulting to empty sequences; all are pure value
operations. -/
theorem c10_constructor_getter_roundtrip (t : String) (d : List Nat)
    (tg : Option (List String)) (u : Option String)
    (ty qtg : Option (List String)) (its : Option (List QueryItem)) :
    (Event.construct t d tg u).get_event_type = t ∧
    (Event.construct t d tg u).get_tags = tg.getD [] ∧
    (Event.construct t d none u).get_tags = [] ∧
    (Event.construct t d tg u).get_uuid = u ∧
    (QueryItem.construct ty qtg).get_types = ty.getD [] ∧
    (QueryItem.construct ty qtg).get_tags = qtg.getD [] ∧
    (QueryItem.construct none none).get_types = [] ∧
    (QueryItem.construct none none).get_tags = [] ∧
    (Query.construct its).get_items = its.getD [] ∧
    (Query.construct none).get_items = [] :=
  ⟨rfl, rfl, rfl, rfl, rfl, rfl, rfl, rfl, rfl, rfl⟩

/-- C5 counterexample: the claim says an Event with an unparseable uuid
string "is never successfully constructed"; but `Event::__construct` is
total and performs no validation — it successfully constructs an Event
carrying the unparseable uuid string "not-a-uuid". -/
theorem c5_counterexample :
    Event.construct "T" [100] none (some "not-a-uuid") =
      { event_type := "T", data := [100], tags := [], uuid := some "not-a-uuid" } ∧
    uuidParse "not-a-uuid" = none :=
  ⟨rfl, by decide⟩

/-- C5 amended: construction does not validate the uuid — an Event carrying
any unparseable uuid string is constructed successfully, and the validation
failure only surfaces later, when `Event::to_dcb_event` runs at append
time. -/
theorem c5_uuid_validated_at_append_not_construction (t : String) (d : List Nat)
    (tg : Option (List String)) (s : String) (h : uuidParse s = none) :
    (Event.construct t d tg (some s)).uuid = some s ∧
    (Event.construct t d tg (some s)).to_dcb_event =
      Except.error ("Invalid UUID: " ++ s) := by
  refine ⟨rfl, ?_⟩
  simp [Event.construct, Event.to_dcb_event, h]

/-- C5 witness: the amended theorem applied at the concrete unparseable
uuid string "not-a-uuid". -/
theorem c5_uuid_validated_at_append_not_construction_witness :
    uuidParse "not-a-uuid" = none ∧
    ((Event.construct "T" [100] none (some "not-a-uuid")).uuid = some "not-a-uuid" ∧
      (Event.construct "T" [100] none (some "not-a-uuid")).to_dcb_event =
        Except.error ("Invalid UUID: " ++ "not-a-uuid")) :=
  ⟨by decide,
   c5_uuid_validated_at_append_not_construction "T" [100] none "not-a-uuid" (by decide)⟩

/-- C7 counterexample: the claim says every Event holding data `d` exposes
exactly `d` through its data accessor; but `Event::get_data` applies lossy
UTF-8 decoding, so an Event holding the single byte 0xFF exposes the
replacement-character bytes instead. -/
theorem c7_counterexample :
    ({ event_type := "T", data := [255], tags := [], uuid := none } : Event).get_data =
      [0xEF, 0xBF, 0xBD] ∧
    ({ event_type := "T", data := [255], tags := [], uuid := none } : Event).get_data ≠
      [255] := by
  constructor <;> decide

/-- C7 amended: the Event read back from the store holds exactly the
original bytes field-for-field (the `From<RustSequencedEvent>` conversion
moves every field unchanged), and the data accessor exposes exactly those
bytes whenever they are valid UTF-8; invalid sequences are replaced by
U+FFFD by the accessor's lossy decoding. -/
theorem c7_data_preserved_get_data_lossy (rse : RustSequencedEvent)
    (h : validUtf8 rse.event.data = true) :
    (SequencedEvent.fromRust rse).event.event_type = rse.event.event_type ∧
    (SequencedEvent.fromRust rse).event.data = rse.event.data ∧
    (SequencedEvent.fromRust rse).event.tags = rse.event.tags ∧
    (SequencedEvent.fromRust rse).event.uuid = rse.event.uuid ∧
    (SequencedEvent.fromRust rse).position = rse.position ∧
    (SequencedEvent.fromRust rse).event.get_data = rse.event.data := by
  refine ⟨rfl, rfl, rfl, rfl, rfl, ?_⟩
  simpa [Event.get_data, SequencedEvent.fromRust] using lossy_of_valid _ h

/-- C7 witness: the amended theorem applied to a concrete sequenced event
whose data bytes are valid UTF-8. -/
theorem c7_data_preserved_get_data_lossy_witness :
    validUtf8 sampleSeq.event.data = true ∧
    (SequencedEvent.fromRust sampleSeq).event.get_data = sampleSeq.event.data :=
  ⟨by decide, (c7_data_preserved_get_data_lossy sampleSeq (by decide)).2.2.2.2.2⟩

/-- C8 counterexample: the claim says every store-reported error is
classified into the five-class taxonomy of §7; but the catch-all arm of
`dcb_error_to_exception` surfaces any other store-reported error variant as
a generic `UmaDBException` message carrying the error's debug rendering — a
shape outside the taxonomy. -/
theorem c8_counterexample :
    inTaxonomy (dcb_error_to_exception (DCBError.other "SomeNewError")) = false := by
  decide

/-- C8 amended: the four store error variants matched by name are classified
into the corresponding taxonomy classes, and no store error is silently
swallowed — every remaining variant still surfaces as an exception, but with
a generic `UmaDBException` message shape outside the five-class taxonomy. -/
theorem c8_error_translation (m : String) (e : DCBError) :
    inTaxonomy (dcb_error_to_exception (DCBError.integrityError m)) = true ∧
    inTaxonomy (dcb_error_to_exception (DCBError.transportError m)) = true ∧
    inTaxonomy (dcb_error_to_exception (DCBError.corruption m)) = true ∧
    inTaxonomy (dcb_error_to_exception (DCBError.ioError m)) = true ∧
    (inTaxonomy (dcb_error_to_exception e) = true ∨
      strStarts "UmaDB\\Exception\\UmaDBException:" (dcb_error_to_exception e) = true) := by
  refine ⟨?_, ?_, ?_, ?_, ?_⟩
  · have h : strStarts "UmaDB\\Exception\\IntegrityException:"
        ("UmaDB\\Exception\\IntegrityException: " ++ m) = true :=
      strStarts_append _ _ m (by decide)
    simp [inTaxonomy, dcb_error_to_exception, h]
  · have h : strStarts "UmaDB\\Exception\\TransportException:"
        ("UmaDB\\Exception\\TransportException: " ++ m) = true :=
      strStarts_append _ _ m (by decide)
    simp [inTaxonomy, dcb_error_to_exception, h]
  · have h : strStarts "UmaDB\\Exception\\CorruptionException:"
        ("UmaDB\\Exception\\CorruptionException: " ++ m) = true :=
      strStarts_append _ _ m (by decide)
    simp [inTaxonomy, dcb_error_to_exception, h]
  · have h : strStarts "UmaDB\\Exception\\IoException:"
        ("UmaDB\\Exception\\IoException: " ++ m) = true :=
      strStarts_append _ _ m (by decide)
    simp [inTaxonomy, dcb_error_to_exception, h]
  · rcases e with m' | m' | m' | m' | r
    · exact Or.inl (by
        have h : strStarts "UmaDB\\Exception\\IntegrityException:"
            ("UmaDB\\Exception\\IntegrityException: " ++ m') = true :=
          strStarts_append _ _ m' (by decide)
        simp [inTaxonomy, dcb_error_to_exception, h])
    · exact Or.inl (by
        have h : strStarts "UmaDB\\Exception\\TransportException:"
            ("UmaDB\\Exception\\TransportException: " ++ m') = true :=
          strStarts_append _ _ m' (by decide)
        simp [inTaxonomy, dcb_error_to_exception, h])
    · exact Or.inl (by
        have h : strStarts "UmaDB\\Exception\\CorruptionException:"
            ("UmaDB\\Exception\\CorruptionException: " ++ m') = true :=
          strStarts_append _ _ m' (by decide)
        simp [inTaxonomy, dcb_error_to_exception, h])
    · exact Or.inl (by
        have h : strStarts "UmaDB\\Exception\\IoException:"
            ("UmaDB\\Exception\\IoException: " ++ m') = true :=
          strStarts_append _ _ m' (by decide)
        simp [inTaxonomy, dcb_error_to_exception, h])
    · exact Or.inr (by
        have h : strStarts "UmaDB\\Exception\\UmaDBException:"
            ("UmaDB\\Exception\\UmaDBException: " ++ (DCBError.other r).debug) = true :=
          strStarts_append _ _ _ (by decide)
        simpa [dcb_error_to_exception] using h)

/-- C6: an append whose events list contains an Event with a present but
unparseable uuid string raises a validation error (an "Invalid UUID"
exception) before any network call is made, and no append is attempted
against the store. -/
theorem c6_invalid_uuid_fails_before_network (store : List RustEvent)
    (events : List Event) (cond : Option AppendCondition)
    (h : ∃ e ∈ events, ∃ s, e.uuid = some s ∧ uuidParse s = none) :
    (∃ s, (Client.append store events cond).result =
        Except.error ("Invalid UUID: " ++ s)) ∧
    (Client.append store events cond).networkCalled = false ∧
    (Client.append store events cond).newStore = store := by
  obtain ⟨s, hcol⟩ := collectEvents_error_of_bad events h
  exact ⟨⟨s, by simp [Client.append, hcol]⟩,
    by simp [Client.append, hcol], by simp [Client.append, hcol]⟩

/-- C6 witness: the theorem applied to a one-event batch carrying the
unparseable uuid "not-a-uuid" against the empty store. -/
theorem c6_invalid_uuid_fails_before_network_witness :
    (∃ e ∈ [badUuidEvent], ∃ s, e.uuid = some s ∧ uuidParse s = none) ∧
    ((∃ s, (Client.append [] [badUuidEvent] none).result =
        Except.error ("Invalid UUID: " ++ s)) ∧
      (Client.append [] [badUuidEvent] none).networkCalled = false ∧
      (Client.append [] [badUuidEvent] none).newStore = []) :=
  ⟨⟨badUuidEvent, by simp, "not-a-uuid", rfl, by decide⟩,
   c6_invalid_uuid_fails_before_network [] [badUuidEvent] none
     ⟨badUuidEvent, by simp, "not-a-uuid", rfl, by decide⟩⟩

/-- C2: for an append with a condition present (whose events all convert,
i.e. no prior validation failure), the call fails with an IntegrityError iff
some already-durable event matching `condition.fail_if_events_match` exists
at a position strictly greater than `condition.after` (absent `after`
meaning "since the beginning", so events at position exactly `after` do not
count), and in that case nothing is written; otherwise the whole batch is
appended contiguously and the call returns the prior head position plus the
number of appended events (single-writer: the model serialises appends). -/
theorem c2_append_condition_enforcement (store : List RustEvent)
    (events : List Event) (c : AppendCondition) (revs : List RustEvent)
    (h : collectEvents events = Except.ok revs) :
    ((∃ m, (Client.append store events (some c)).result =
        Except.error ("UmaDB\\Exception\\IntegrityException: " ++ m)) ↔
      ∃ se ∈ storeSequenced store,
        se.position > c.after.getD 0 ∧
          specMatchesQuery se.event c.fail_if_events_match) ∧
    ((∃ se ∈ storeSequenced store,
        se.position > c.after.getD 0 ∧
          specMatchesQuery se.event c.fail_if_events_match) →
      (Client.append store events (some c)).newStore = store) ∧
    (¬ (∃ se ∈ storeSequenced store,
        se.position > c.after.getD 0 ∧
          specMatchesQuery se.event c.fail_if_events_match) →
      (Client.append store events (some c)).result =
          Except.ok ((storeHead store).getD 0 + events.length) ∧
        (Client.append store events (some c)).newStore = store ++ revs) := by
  have hb := condViolated_iff store c
  by_cases hv : condViolated store c.toRust = true
  · have hres : Client.append store events (some c) =
        { result := Except.error
            ("UmaDB\\Exception\\IntegrityException: " ++ "append condition failed")
          newStore := store, networkCalled := true } := by
      simp [Client.append, h, storeAppend, hv, dcb_error_to_exception]
    refine ⟨?_, fun _ => by simp [hres], fun hnv => absurd (hb.mp hv) hnv⟩
    constructor
    · intro _
      exact hb.mp hv
    · intro _
      exact ⟨"append condition failed", by simp [hres]⟩
  · have hres : Client.append store events (some c) =
        { result := Except.ok (store.length + revs.length)
          newStore := store ++ revs, networkCalled := true } := by
      simp [Client.append, h, storeAppend, hv]
    refine ⟨?_, fun hviol => absurd (hb.mpr hviol) hv, fun _ => ?_⟩
    · constructor
      · rintro ⟨m, hm⟩
        rw [hres] at hm
        cases hm
      · intro hviol
        exact absurd (hb.mpr hviol) hv
    · rw [hres, storeHead_getD, collectEvents_ok_length events revs h]
      exact ⟨rfl, rfl⟩

/-- C2 witness: the theorem applied to a store holding one matching event at
position 1 and a condition with absent `after`, so the condition is violated
and nothing is written. -/
theorem c2_append_condition_enforcement_witness :
    collectEvents [sampleEvent] = Except.ok [sampleEventRust] ∧
    (Client.append [sampleRustEvent] [sampleEvent] (some sampleCondition)).newStore =
      [sampleRustEvent] :=
  ⟨rfl,
   (c2_append_condition_enforcement [sampleRustEvent] [sampleEvent] sampleCondition
       [sampleEventRust] rfl).2.1
     ⟨{ event := sampleRustEvent, position := 1 }, by decide, by decide,
       by simp [specMatchesQuery, sampleCondition, sampleRustEvent]⟩⟩

/-- C3 counterexample: the claim says events already yielded before a
mid-stream failure "remain valid and observed by the caller"; but on the
stream that yields one event and then a transport error, the loop pulls both
items (readConsumed = 2) and the call surfaces only the translated
exception — the caller observes no events at all. -/
theorem c3_counterexample :
    Client.read failingStream =
      Except.error "UmaDB\\Exception\\TransportException: boom" ∧
    (Client.read failingStream).isOk = false ∧
    readConsumed failingStream = 2 :=
  ⟨rfl, rfl, rfl⟩

/-- C3 amended: a transport or store-side error mid-stream aborts iteration
at the point of failure and is surfaced exactly once as the translated
exception, but the events yielded by the stream before the failure are
discarded: the call returns only the exception and the caller observes no
events. -/
theorem c3_error_aborts_and_discards (pre : List RustSequencedEvent) (e : DCBError)
    (rest : List (Except DCBError RustSequencedEvent)) :
    Client.read (pre.map Except.ok ++ Except.error e :: rest) =
      Except.error (dcb_error_to_exception e) :=
  readLoop_first_error pre e rest []

/-- C4 counterexample: the claim says the client requests the next item only
after the caller has consumed the current one and never materializes the
whole result set before the first event is observable; but on a two-event
stream the loop consumes both items (readConsumed = 2, not at most 1) before
the call returns, and the only value the caller ever observes is the fully
materialized two-element array. -/
theorem c4_counterexample :
    readConsumed twoEventStream = 2 ∧
    ¬ readConsumed twoEventStream ≤ 1 ∧
    Client.read twoEventStream =
      Except.ok
        [{ event := { event_type := "Created", data := [104, 105],
                      tags := ["order:1"], uuid := none }, position := 1 },
         { event := { event_type := "Updated", data := [], tags := [],
                      uuid := none }, position := 2 }] :=
  ⟨rfl, by decide, rfl⟩

/-- C4 amended: the PHP-level `Client::read` is eager, not lazy: for any
error-free result stream it consumes the entire stream (readConsumed equals
the stream length) and returns the fully materialized array in one value, so
the first event becomes observable to the caller only together with the
whole result set.  (Batched fetching exists only inside the inner Rust
client; it is not observable at this surface.) -/
theorem c4_read_materializes_eagerly (ses : List RustSequencedEvent) :
    readConsumed (ses.map Except.ok) = ses.length ∧
    Client.read (ses.map Except.ok) = Except.ok (ses.map SequencedEvent.fromRust) := by
  refine ⟨readConsumed_map_ok ses, ?_⟩
  simpa [Client.read] using readLoop_map_ok ses []

/-- C9: for a subscription stream that never ends and never errors (subscribe
set and no limit), the collecting loop of `Client::read` is still running
after any number of steps: the call never returns, and since events reach
the caller only when the loop finishes with a result, the caller observes no
events and no partial delivery ever happens. -/
theorem c9_subscribe_never_returns (stream : Nat → StreamItem)
    (h : ∀ n, ∃ se, stream n = StreamItem.next (Except.ok se)) (n : Nat) :
    ∃ buf, readSteps stream n = LoopState.running buf := by
  induction n with
  | zero => exact ⟨[], rfl⟩
  | succ n ih =>
    obtain ⟨buf, hb⟩ := ih
    obtain ⟨se, hs⟩ := h n
    exact ⟨SequencedEvent.fromRust se :: buf, by simp [readSteps, hb, hs]⟩

/-- C9 witness: the theorem applied to the constant subscription stream at
step 3. -/
theorem c9_subscribe_never_returns_witness :
    ∃ buf, readSteps constStream 3 = LoopState.running buf :=
  c9_subscribe_never_returns constStream (fun _ => ⟨sampleSeq, rfl⟩) 3

end UmaDB
